import Mathlib

/-!
Verification development for the plumber kustomize renderer.

The Go sources are shallowly embedded: external collaborators (the cluster
client, the kustomize composition engine, the YAML/JSON codecs and the type
scheme) are opaque in the Go code and are therefore modeled as an explicit
environment of oracle functions; the renderer's own control flow is
translated statement by statement.  Cluster interactions are recorded in an
explicit trace of calls so that submission behaviour is observable.
-/

namespace Plumber

/-- Outcome of a cluster patch or delete request as classified by the Go
code through `errors.IsNotFound`: success, a not-found error, or any other
error carrying a message. -/
inductive PRes where
  | ok : PRes
  | notFound : PRes
  | err (msg : String) : PRes
  deriving DecidableEq, Repr

/-- Options attached to a patch request (`client.PatchOption`): the code
always passes `client.FieldOwner(r.fieldOwner)` and additionally
`client.ForceOwnership` when configured. -/
inductive PatchOpt where
  | fieldOwner (owner : String) : PatchOpt
  | forceOwnership : PatchOpt
  deriving DecidableEq, Repr

/-- Options attachable to a create request (`client.CreateOption`); the
client library offers a field owner here too, but `Renderer.Apply` passes
none. -/
inductive CreateOpt where
  | fieldOwner (owner : String) : CreateOpt
  deriving DecidableEq, Repr

/-- One request issued to the cluster client, with the options the code
passed along. -/
inductive Call (Obj : Type) where
  | patch (o : Obj) (opts : List PatchOpt) : Call Obj
  | create (o : Obj) (opts : List CreateOpt) : Call Obj
  | delete (o : Obj) : Call Obj
  deriving DecidableEq, Repr

/-- Group/version/kind identity of a resource. -/
structure GVK where
  group : String
  version : String
  kind : String
  deriving DecidableEq, Repr

/-- In-memory virtual filesystem (kustomize `filesys.MakeFsInMemory`):
an association list from normalized absolute paths to file contents.  File
contents are opaque byte blobs in Go and are kept as a type parameter. -/
abbrev FS (β : Type) := List (String × β)

/-- The in-memory filesystem stores paths in absolute form (a path is
absolute when its first character is a slash). -/
def normPath (p : String) : String :=
  if p.data.head? = some '/' then p else "/" ++ p

/-- Write (create or overwrite) a file in the virtual filesystem. -/
def writeFile {β : Type} : FS β → String → β → FS β
  | [], p, c => [(normPath p, c)]
  | (q, d) :: rest, p, c =>
      if q = normPath p then (q, c) :: rest else (q, d) :: writeFile rest p c

/-- Read a file from the virtual filesystem. -/
def readFile {β : Type} : FS β → String → Option β
  | [], _ => none
  | (q, d) :: rest, p => if q = normPath p then some d else readFile rest p

/-- Entry of the embedded source tree (`embed.FS`): a file or a directory.
The embedded tree is read-only: the type offers no write operation,
mirroring Go's `embed.FS` API. -/
inductive Entry (β : Type) where
  | file (name : String) (content : β) : Entry β
  | dir (name : String) (entries : List (Entry β)) : Entry β
  deriving Repr

/-- Embedded source: the entries of the root directory. -/
abbrev Emb (β : Type) := List (Entry β)

/-- Join of two path elements as done by `path.Join` on the shapes the code
uses (the first element is either `"."` or already clean). -/
def pathJoin (a b : String) : String :=
  if a = "." then b else a ++ "/" ++ b

mutual

/-- Copy one entry of the embedded tree into the virtual filesystem,
mirroring the body of the `readdir` loop in the loader. -/
def readdirEntry {β : Type} (dir : String) (e : Entry β) (dst : FS β) : FS β :=
  match e with
  | Entry.file n c => writeFile dst (pathJoin dir n) c
  | Entry.dir n sub => readdir (pathJoin dir n) sub dst

/-- Recursive copy of a directory listing into the virtual filesystem,
mirroring `readdir`.  Reads from the embedded source cannot fail (its
contents are compiled in), so the copy is modeled as total. -/
def readdir {β : Type} (dir : String) (es : List (Entry β)) (dst : FS β) : FS β :=
  match es with
  | [] => dst
  | e :: rest => readdir dir rest (readdirEntry dir e dst)

end

/-- Mirror of `LoadFS`: loads the embedded tree into a fresh in-memory
filesystem by recursively copying every file. -/
def LoadFS {β : Type} (content : Emb β) : FS β :=
  readdir "." content []

/-- Location of the base kustomization file. -/
def BaseKustomizationPath : String := "/kustomize/base/kustomization.yaml"

/-- Mirror of `KustomizeMutator`; Go mutates the struct through a pointer,
modeled by returning the updated value. -/
abbrev KustomizeMutator (Kust : Type) := Kust → Except String Kust

/-- Mirror of `ObjectMutator`. -/
abbrev ObjectMutator (Obj : Type) := Obj → Except String Obj

/-- Mirror of `PostApplyAction`; same shape as an object mutator, but the
pipeline discards the mutated value after the action chain. -/
abbrev PostApplyAction (Obj : Type) := Obj → Except String Obj

/-- Mirror of `FSMutator`. -/
abbrev FSMutator (β : Type) := FS β → Except String (FS β)

/-- Mirror of the `Renderer` struct.  The cluster client (`cli` in Go) is
split off into the oracle environment `Env`; the remaining configuration
fields are kept verbatim. -/
structure Renderer (β Kust Obj : Type) where
  fromEmb : Emb β
  fieldOwner : String
  forceOwner : Bool
  unstructured : Bool
  kmutators : List (KustomizeMutator Kust)
  omutators : List (ObjectMutator Obj)
  postApply : List (PostApplyAction Obj)
  fsmutators : List (FSMutator β)

/-- Mirror of the functional `Option` type (renamed: `Option` is taken in
Lean). -/
abbrev POption (β Kust Obj : Type) := Renderer β Kust Obj → Renderer β Kust Obj

/-- Mirror of `WithFieldOwner`. -/
def WithFieldOwner {β Kust Obj : Type} (owner : String) : POption β Kust Obj :=
  fun r => { r with fieldOwner := owner }

/-- Mirror of `WithForceOwnership`. -/
def WithForceOwnership {β Kust Obj : Type} : POption β Kust Obj :=
  fun r => { r with forceOwner := true }

/-- Mirror of `WithKustomizeMutator`. -/
def WithKustomizeMutator {β Kust Obj : Type} (m : KustomizeMutator Kust) :
    POption β Kust Obj :=
  fun r => { r with kmutators := r.kmutators ++ [m] }

/-- Mirror of `WithObjectMutator`. -/
def WithObjectMutator {β Kust Obj : Type} (m : ObjectMutator Obj) :
    POption β Kust Obj :=
  fun r => { r with omutators := r.omutators ++ [m] }

/-- Mirror of `WithUnstructured`. -/
def WithUnstructured {β Kust Obj : Type} : POption β Kust Obj :=
  fun r => { r with unstructured := true }

/-- Mirror of `WithPostApplyAction`. -/
def WithPostApplyAction {β Kust Obj : Type} (a : PostApplyAction Obj) :
    POption β Kust Obj :=
  fun r => { r with postApply := r.postApply ++ [a] }

/-- Mirror of `WithFSMutator`. -/
def WithFSMutator {β Kust Obj : Type} (m : FSMutator β) : POption β Kust Obj :=
  fun r => { r with fsmutators := r.fsmutators ++ [m] }

/-- Mirror of `NewRenderer`: defaults, then the options applied in order.
The Go constructor also receives the cluster client, which lives in `Env`
here. -/
def NewRenderer {β Kust Obj : Type} (emb : Emb β)
    (opts : List (POption β Kust Obj)) : Renderer β Kust Obj :=
  opts.foldl (fun r o => o r)
    { fromEmb := emb, fieldOwner := "plumber", forceOwner := false,
      unstructured := false, kmutators := [], omutators := [],
      postApply := [], fsmutators := [] }

/-- Oracle environment for the external collaborators: the cluster client
(per-object request outcomes), the scheme/type registry, the JSON and YAML
codecs and the kustomize composition engine.  All of these are opaque
library calls in the Go code. -/
structure Env (β Kust Res Raw RtObj Obj : Type) where
  patchRes : Obj → PRes
  createRes : Obj → Option String
  deleteRes : Obj → PRes
  schemeNew : GVK → Except String RtObj
  resGvk : Res → GVK
  resMarshalJSON : Res → Except String Raw
  jsonUnmarshal : Raw → RtObj → Except String RtObj
  castClientObj : RtObj → Option Obj
  rtGvkString : RtObj → String
  resAsYAML : Res → Except String Raw
  decodeUnstructured : Raw → Except String Obj
  yamlUnmarshalKust : β → Except String Kust
  yamlMarshalKust : Kust → Except String β
  krustyRun : FS β → String → Except String (List Res)

/-- Run a list of mutators in order, stopping at the first error; mirrors
the `for _, mut := range ...` loops. -/
def runChain {α : Type} : List (α → Except String α) → α → Except String α
  | [], x => Except.ok x
  | m :: rest, x =>
      match m x with
      | Except.error e => Except.error e
      | Except.ok y => runChain rest y

/-- Mirror of `Renderer.typedObject`: instantiate the type via the scheme,
marshal the resource to JSON, unmarshal into the instance and require the
client-object capability. -/
def typedObject {β Kust Res Raw RtObj Obj : Type}
    (env : Env β Kust Res Raw RtObj Obj) (rsc : Res) : Except String Obj :=
  match env.schemeNew (env.resGvk rsc) with
  | Except.error e => Except.error ("unable to instantiate runtime object: " ++ e)
  | Except.ok runtimeobj =>
      match env.resMarshalJSON rsc with
      | Except.error e => Except.error ("error marshaling resource: " ++ e)
      | Except.ok rawjson =>
          match env.jsonUnmarshal rawjson runtimeobj with
          | Except.error e => Except.error ("error unmarshaling into object: " ++ e)
          | Except.ok robj =>
              match env.castClientObj robj with
              | none => Except.error (env.rtGvkString robj ++ " is not client.Object")
              | some clientobj => Except.ok clientobj

/-- Mirror of `Renderer.unstructuredObject`. -/
def unstructuredObject {β Kust Res Raw RtObj Obj : Type}
    (env : Env β Kust Res Raw RtObj Obj) (rsc : Res) : Except String Obj :=
  match env.resAsYAML rsc with
  | Except.error e => Except.error ("error converting resource to yaml: " ++ e)
  | Except.ok data =>
      match env.decodeUnstructured data with
      | Except.error e => Except.error ("error decoding unstructured object: " ++ e)
      | Except.ok obj => Except.ok obj

/-- Mirror of `Renderer.mutateKustomization`: nothing happens when no
kustomize mutator is registered; otherwise read the base kustomization,
decode it, run the mutators, re-encode and write it back. -/
def mutateKustomization {β Kust Res Raw RtObj Obj : Type}
    (env : Env β Kust Res Raw RtObj Obj) (r : Renderer β Kust Obj)
    (fs : FS β) : Except String (FS β) :=
  if r.kmutators.isEmpty then Except.ok fs
  else
    match readFile fs BaseKustomizationPath with
    | none => Except.error ("error reading base kustomization: file does not exist")
    | some olddt =>
        match env.yamlUnmarshalKust olddt with
        | Except.error e => Except.error ("error parsing base kustomization: " ++ e)
        | Except.ok kust =>
            match runChain r.kmutators kust with
            | Except.error e => Except.error ("error mutating kustomization: " ++ e)
            | Except.ok kust2 =>
                match env.yamlMarshalKust kust2 with
                | Except.error e =>
                    Except.error ("error marshaling base kustomization: " ++ e)
                | Except.ok newdt =>
                    Except.ok (writeFile fs BaseKustomizationPath newdt)

/-- Conversion loop at the end of `Renderer.parse`: convert every composed
resource, failing the whole parse at the first unconvertible one. -/
def convertAll {β Kust Res Raw RtObj Obj : Type}
    (env : Env β Kust Res Raw RtObj Obj) (r : Renderer β Kust Obj) :
    List Res → Except String (List Obj)
  | [] => Except.ok []
  | rsc :: rest =>
      if r.unstructured then
        match unstructuredObject env rsc with
        | Except.error e => Except.error ("error converting type to unstructure: " ++ e)
        | Except.ok o =>
            match convertAll env r rest with
            | Except.error e => Except.error e
            | Except.ok os => Except.ok (o :: os)
      else
        match typedObject env rsc with
        | Except.error e => Except.error e
        | Except.ok o =>
            match convertAll env r rest with
            | Except.error e => Except.error e
            | Except.ok os => Except.ok (o :: os)

/-- Stages of `Renderer.parse` from a given starting virtual tree:
filesystem mutators, kustomization mutation, kustomize run, conversion. -/
def parseFrom {β Kust Res Raw RtObj Obj : Type}
    (env : Env β Kust Res Raw RtObj Obj) (r : Renderer β Kust Obj)
    (virtfs : FS β) (overlay : String) : Except String (List Obj) :=
  match runChain r.fsmutators virtfs with
  | Except.error e => Except.error ("error mutating filesystem: " ++ e)
  | Except.ok fs2 =>
      match mutateKustomization env r fs2 with
      | Except.error e => Except.error ("error setting object name prefix: " ++ e)
      | Except.ok fs3 =>
          match env.krustyRun fs3 (pathJoin "kustomize" overlay) with
          | Except.error e => Except.error ("error running kustomize: " ++ e)
          | Except.ok ress => convertAll env r ress

/-- Mirror of `Renderer.parse`: load the embedded source into a fresh
virtual tree, then run the remaining stages on that copy. -/
def parse {β Kust Res Raw RtObj Obj : Type}
    (env : Env β Kust Res Raw RtObj Obj) (r : Renderer β Kust Obj)
    (overlay : String) : Except String (List Obj) :=
  parseFrom env r (LoadFS r.fromEmb) overlay

/-- Patch options built by `Renderer.Apply` for every patch request:
always the field owner, plus forced ownership when configured. -/
def patchOpts {β Kust Obj : Type} (r : Renderer β Kust Obj) : List PatchOpt :=
  PatchOpt.fieldOwner r.fieldOwner ::
    (if r.forceOwner then [PatchOpt.forceOwnership] else [])

/-- Submission loop of `Renderer.Apply`: for each object run the object
mutators, patch (falling back to create exactly on not-found), then run the
post-apply actions; the first error stops everything.  Returns the trace of
cluster calls together with the error, if any. -/
def applyLoop {β Kust Res Raw RtObj Obj : Type}
    (env : Env β Kust Res Raw RtObj Obj) (r : Renderer β Kust Obj) :
    List Obj → List (Call Obj) × Option String
  | [] => ([], none)
  | obj :: rest =>
      match runChain r.omutators obj with
      | Except.error e => ([], some ("error mutating object: " ++ e))
      | Except.ok obj2 =>
          match env.patchRes obj2 with
          | PRes.err e =>
              ([Call.patch obj2 (patchOpts r)], some ("error patching object: " ++ e))
          | PRes.notFound =>
              match env.createRes obj2 with
              | some e =>
                  ([Call.patch obj2 (patchOpts r), Call.create obj2 []],
                    some ("error creating object: " ++ e))
              | none =>
                  match runChain r.postApply obj2 with
                  | Except.error e =>
                      ([Call.patch obj2 (patchOpts r), Call.create obj2 []],
                        some ("error running post apply action: " ++ e))
                  | Except.ok _ =>
                      let t := applyLoop env r rest
                      (Call.patch obj2 (patchOpts r) :: Call.create obj2 [] :: t.1, t.2)
          | PRes.ok =>
              match runChain r.postApply obj2 with
              | Except.error e =>
                  ([Call.patch obj2 (patchOpts r)],
                    some ("error running post apply action: " ++ e))
              | Except.ok _ =>
                  let t := applyLoop env r rest
                  (Call.patch obj2 (patchOpts r) :: t.1, t.2)

/-- Mirror of `Renderer.Apply`: parse the overlay, then submit each object,
returning the trace of cluster calls and the overall error. -/
def Apply {β Kust Res Raw RtObj Obj : Type}
    (env : Env β Kust Res Raw RtObj Obj) (r : Renderer β Kust Obj)
    (overlay : String) : List (Call Obj) × Option String :=
  match parse env r overlay with
  | Except.error e => ([], some ("error parsing kustomize files: " ++ e))
  | Except.ok objs => applyLoop env r objs

/-- Deletion loop of `Renderer.Delete`: run the object mutators, then issue
a delete request; not-found is treated as success and processing continues,
any other error aborts. -/
def deleteLoop {β Kust Res Raw RtObj Obj : Type}
    (env : Env β Kust Res Raw RtObj Obj) (r : Renderer β Kust Obj) :
    List Obj → List (Call Obj) × Option String
  | [] => ([], none)
  | obj :: rest =>
      match runChain r.omutators obj with
      | Except.error e => ([], some ("error mutating object: " ++ e))
      | Except.ok obj2 =>
          match env.deleteRes obj2 with
          | PRes.ok =>
              let t := deleteLoop env r rest
              (Call.delete obj2 :: t.1, t.2)
          | PRes.notFound =>
              let t := deleteLoop env r rest
              (Call.delete obj2 :: t.1, t.2)
          | PRes.err e =>
              ([Call.delete obj2], some ("error deleting object: " ++ e))

/-- Mirror of `Renderer.Delete`. -/
def Delete {β Kust Res Raw RtObj Obj : Type}
    (env : Env β Kust Res Raw RtObj Obj) (r : Renderer β Kust Obj)
    (overlay : String) : List (Call Obj) × Option String :=
  match parse env r overlay with
  | Except.error e => ([], some ("error parsing kustomize files: " ++ e))
  | Except.ok objs => deleteLoop env r objs

/-! ### Files contained in an embedded tree -/

mutual

/-- Files (full path and content) contained in one entry of the embedded
tree. -/
def entryFiles {β : Type} (dir : String) (e : Entry β) : List (String × β) :=
  match e with
  | Entry.file n c => [(pathJoin dir n, c)]
  | Entry.dir n sub => entriesFiles (pathJoin dir n) sub

/-- Files contained in a directory listing of the embedded tree. -/
def entriesFiles {β : Type} (dir : String) (es : List (Entry β)) :
    List (String × β) :=
  match es with
  | [] => []
  | e :: rest => entryFiles dir e ++ entriesFiles dir rest

end

/-! ### Concrete instantiations used by witnesses and ordering results -/

/-- Mutator that appends a stamp to a list-valued item; used to make hook
execution order observable, as the spec's own testable property suggests. -/
def appendStamp (s : Nat) : List Nat → Except String (List Nat) :=
  fun x => Except.ok (x ++ [s])

/-- Concrete embedded tree over `Nat` contents holding only the base
kustomization file. -/
def embNat : Emb Nat :=
  [Entry.dir "kustomize" [Entry.dir "base" [Entry.file "kustomization.yaml" 0]]]

/-- All-success, all-identity oracle environment over `Nat`: every cluster
request succeeds, codecs are the identity and composition returns nothing. -/
def envBase : Env Nat Nat Nat Nat Nat Nat where
  patchRes := fun _ => PRes.ok
  createRes := fun _ => none
  deleteRes := fun _ => PRes.ok
  schemeNew := fun _ => Except.ok 0
  resGvk := fun _ => { group := "", version := "", kind := "" }
  resMarshalJSON := fun rsc => Except.ok rsc
  jsonUnmarshal := fun raw _ => Except.ok raw
  castClientObj := fun o => some o
  rtGvkString := fun _ => ""
  resAsYAML := fun rsc => Except.ok rsc
  decodeUnstructured := fun raw => Except.ok raw
  yamlUnmarshalKust := fun b => Except.ok b
  yamlMarshalKust := fun k => Except.ok k
  krustyRun := fun _ _ => Except.ok []

/-- Renderer over `Nat` with no options configured. -/
def rNat : Renderer Nat Nat Nat := NewRenderer embNat []

/-- Environment whose composition engine returns a fixed resource list. -/
def envSeq (ress : List Nat) : Env Nat Nat Nat Nat Nat Nat :=
  { envBase with krustyRun := fun _ _ => Except.ok ress }

/-- Environment where every patch reports not-found and composition yields
one resource. -/
def envW1 : Env Nat Nat Nat Nat Nat Nat :=
  { envBase with patchRes := fun _ => PRes.notFound,
                 krustyRun := fun _ _ => Except.ok [7] }

/-- Environment for the fail-fast scenario: three composed resources, all
cluster requests succeed. -/
def env2 : Env Nat Nat Nat Nat Nat Nat :=
  { envBase with krustyRun := fun _ _ => Except.ok [1, 2, 3] }

/-- Object mutator failing exactly on object `2`. -/
def failOn2 : ObjectMutator Nat :=
  fun o => if o = 2 then Except.error "boom" else Except.ok o

/-- Renderer registering only the mutator failing on object `2`. -/
def r2 : Renderer Nat Nat Nat := NewRenderer embNat [WithObjectMutator failOn2]

/-- Post-apply action failing exactly on object `2`. -/
def failPost2 : PostApplyAction Nat :=
  fun o => if o = 2 then Except.error "post boom" else Except.ok o

/-- Renderer registering only the post-apply action failing on object `2`. -/
def rPA : Renderer Nat Nat Nat := NewRenderer embNat [WithPostApplyAction failPost2]

/-- Environment whose type registry cannot instantiate kind `"Bad"`; the
composed resource `2` carries that kind, resource `1` is resolvable. -/
def env3 : Env Nat Nat Nat Nat Nat Nat :=
  { envBase with
      schemeNew := fun g =>
        if g.kind = "Bad" then Except.error "no kind is registered" else Except.ok 0,
      resGvk := fun rsc =>
        { group := "", version := "v1", kind := if rsc = 2 then "Bad" else "Good" },
      krustyRun := fun _ _ => Except.ok [1, 2] }

/-- Environment where every delete reports not-found and composition yields
two resources. -/
def env4 : Env Nat Nat Nat Nat Nat Nat :=
  { envBase with deleteRes := fun _ => PRes.notFound,
                 krustyRun := fun _ _ => Except.ok [1, 2] }

/-- Environment whose YAML encoder visibly changes the descriptor (encodes
`k` as `k + 1`), making a re-encode/write-back observable. -/
def envSkip : Env Nat Nat Nat Nat Nat Nat :=
  { envBase with yamlMarshalKust := fun k => Except.ok (k + 1) }

/-- A virtual tree whose base kustomization holds content `0`. -/
def fs6 : FS Nat := [(BaseKustomizationPath, 0)]

/-- Renderer with a single kustomize mutator, used by the amended C6
witness. -/
def r6 : Renderer Nat Nat Nat := NewRenderer embNat [WithKustomizeMutator (fun k => Except.ok (k + 10))]

/-- Environment whose composition engine always fails. -/
def env9 : Env Nat Nat Nat Nat Nat Nat :=
  { envBase with krustyRun := fun _ _ => Except.error "kustomize exploded" }

/-- Options other than `WithFieldOwner`, i.e. every way a caller can
configure the renderer without choosing a field-owner identity. -/
def IsNonOwnerOption {β Kust Obj : Type} (f : POption β Kust Obj) : Prop :=
  f = WithForceOwnership ∨ f = WithUnstructured ∨
    (∃ m, f = WithKustomizeMutator m) ∨ (∃ m, f = WithObjectMutator m) ∨
    (∃ a, f = WithPostApplyAction a) ∨ (∃ m, f = WithFSMutator m)

/-- Concrete embedded tree over list-of-stamps contents, holding the base
kustomization with empty content. -/
def embL : Emb (List Nat) :=
  [Entry.dir "kustomize" [Entry.dir "base" [Entry.file "kustomization.yaml" ([] : List Nat)]]]

/-- Environment over list-of-stamps contents whose composition engine emits
the current base-kustomization content as the single composed resource, so
that the filesystem and kustomization hooks' effects flow into the composed
objects. -/
def envL : Env (List Nat) (List Nat) (List Nat) (List Nat) (List Nat) (List Nat) where
  patchRes := fun _ => PRes.ok
  createRes := fun _ => none
  deleteRes := fun _ => PRes.ok
  schemeNew := fun _ => Except.ok []
  resGvk := fun _ => { group := "", version := "", kind := "" }
  resMarshalJSON := fun rsc => Except.ok rsc
  jsonUnmarshal := fun raw _ => Except.ok raw
  castClientObj := fun o => some o
  rtGvkString := fun _ => ""
  resAsYAML := fun rsc => Except.ok rsc
  decodeUnstructured := fun raw => Except.ok raw
  yamlUnmarshalKust := fun b => Except.ok b
  yamlMarshalKust := fun k => Except.ok k
  krustyRun := fun fs _ => Except.ok [(readFile fs BaseKustomizationPath).getD []]

/-- Filesystem mutator appending a stamp to the base kustomization file. -/
def fsStampFn (s : Nat) : FSMutator (List Nat) :=
  fun fs => Except.ok (writeFile fs BaseKustomizationPath
    (((readFile fs BaseKustomizationPath).getD []) ++ [s]))

/-- Registration of a stamping filesystem hook. -/
def fsStampOpt (s : Nat) : POption (List Nat) (List Nat) (List Nat) :=
  WithFSMutator (fsStampFn s)

/-- Registration of a stamping kustomization hook. -/
def kStampOpt (s : Nat) : POption (List Nat) (List Nat) (List Nat) :=
  WithKustomizeMutator (appendStamp s)

/-- Registration of a stamping object hook. -/
def oStampOpt (s : Nat) : POption (List Nat) (List Nat) (List Nat) :=
  WithObjectMutator (appendStamp s)

/-- Registration of a stamping post-apply action. -/
def pStampOpt (s : Nat) : POption (List Nat) (List Nat) (List Nat) :=
  WithPostApplyAction (appendStamp s)

/-- Renderer registering stamping hooks of the three pre-submission
categories, in registration order given by the three stamp lists. -/
def rStamp (fsS kS oS : List Nat) : Renderer (List Nat) (List Nat) (List Nat) :=
  NewRenderer embL (fsS.map fsStampOpt ++ kS.map kStampOpt ++ oS.map oStampOpt)

/-! ### Helper lemmas about the virtual filesystem -/

theorem readFile_writeFile_same {β : Type} (fs : FS β) (p : String) (c : β) :
    readFile (writeFile fs p c) p = some c := by
  induction fs with
  | nil => simp [writeFile, readFile]
  | cons hd tl ih =>
      obtain ⟨q, d⟩ := hd
      by_cases hq : q = normPath p
      · simp [writeFile, readFile, hq]
      · simp [writeFile, readFile, hq, ih]

theorem writeFile_writeFile_same {β : Type} (fs : FS β) (p : String) (c d : β) :
    writeFile (writeFile fs p c) p d = writeFile fs p d := by
  induction fs with
  | nil => simp [writeFile]
  | cons hd tl ih =>
      obtain ⟨q, e⟩ := hd
      by_cases hq : q = normPath p
      · simp [writeFile, hq]
      · simp [writeFile, hq, ih]

theorem writeFile_readFile_eq {β : Type} (fs : FS β) (p : String) (c : β)
    (h : readFile fs p = some c) : writeFile fs p c = fs := by
  induction fs with
  | nil => simp [readFile] at h
  | cons hd tl ih =>
      obtain ⟨q, d⟩ := hd
      by_cases hq : q = normPath p
      · simp [readFile, hq] at h
        simp [writeFile, hq, h]
      · simp [readFile, hq] at h
        simp [writeFile, hq, ih h]

/-! ### The loader copies exactly the files of the embedded tree -/

mutual

theorem readdirEntry_files {β : Type} (dir : String) (e : Entry β) (dst : FS β) :
    readdirEntry dir e dst =
      (entryFiles dir e).foldl (fun fs pc => writeFile fs pc.1 pc.2) dst := by
  cases e with
  | file n c => simp [readdirEntry, entryFiles]
  | dir n sub =>
      simp only [readdirEntry, entryFiles]
      exact readdir_files (pathJoin dir n) sub dst

theorem readdir_files {β : Type} (dir : String) (es : List (Entry β)) (dst : FS β) :
    readdir dir es dst =
      (entriesFiles dir es).foldl (fun fs pc => writeFile fs pc.1 pc.2) dst := by
  cases es with
  | nil => simp [readdir, entriesFiles]
  | cons e rest =>
      simp only [readdir, entriesFiles, List.foldl_append]
      rw [← readdirEntry_files dir e dst]
      exact readdir_files dir rest (readdirEntry dir e dst)

end

/-! ### Congruence lemmas: which configuration fields each stage reads -/

theorem convertAll_congr {β Kust Res Raw RtObj Obj : Type}
    (env : Env β Kust Res Raw RtObj Obj) (r1 r2 : Renderer β Kust Obj)
    (h : r1.unstructured = r2.unstructured) :
    ∀ ress : List Res, convertAll env r1 ress = convertAll env r2 ress := by
  intro ress
  induction ress with
  | nil => simp [convertAll]
  | cons rsc rest ih => simp [convertAll, h, ih]

theorem mutateKustomization_congr {β Kust Res Raw RtObj Obj : Type}
    (env : Env β Kust Res Raw RtObj Obj) (r1 r2 : Renderer β Kust Obj)
    (h : r1.kmutators = r2.kmutators) (fs : FS β) :
    mutateKustomization env r1 fs = mutateKustomization env r2 fs := by
  unfold mutateKustomization
  rw [h]

theorem parse_congr {β Kust Res Raw RtObj Obj : Type}
    (env : Env β Kust Res Raw RtObj Obj) (r1 r2 : Renderer β Kust Obj)
    (hf : r1.fromEmb = r2.fromEmb) (hfs : r1.fsmutators = r2.fsmutators)
    (hk : r1.kmutators = r2.kmutators) (hu : r1.unstructured = r2.unstructured)
    (overlay : String) : parse env r1 overlay = parse env r2 overlay := by
  unfold parse parseFrom
  rw [hf, hfs]
  simp only [mutateKustomization_congr env r1 r2 hk, convertAll_congr env r1 r2 hu]

theorem deleteLoop_congr {β Kust Res Raw RtObj Obj : Type}
    (env : Env β Kust Res Raw RtObj Obj) (r1 r2 : Renderer β Kust Obj)
    (h : r1.omutators = r2.omutators) :
    ∀ objs : List Obj, deleteLoop env r1 objs = deleteLoop env r2 objs := by
  intro objs
  induction objs with
  | nil => simp [deleteLoop]
  | cons obj rest ih => simp [deleteLoop, h, ih]

/-! ### Characterization of the submission loop of `Apply` -/

theorem applyLoop_calls {β Kust Res Raw RtObj Obj : Type}
    (env : Env β Kust Res Raw RtObj Obj) (r : Renderer β Kust Obj)
    (objs : List Obj) :
    ∀ c ∈ (applyLoop env r objs).1,
      (∃ o, c = Call.patch o (patchOpts r)) ∨
      (∃ o, c = Call.create o [] ∧ env.patchRes o = PRes.notFound ∧
        Call.patch o (patchOpts r) ∈ (applyLoop env r objs).1) := by
  induction objs with
  | nil => intro c h; simp [applyLoop] at h
  | cons obj rest ih =>
      intro c h
      rw [applyLoop] at h ⊢
      cases hm : runChain r.omutators obj with
      | error e => simp [hm] at h
      | ok obj2 =>
          simp only [hm] at h ⊢
          cases hp : env.patchRes obj2 with
          | err e =>
              simp only [hp, List.mem_singleton] at h
              exact Or.inl ⟨obj2, h⟩
          | notFound =>
              simp only [hp] at h ⊢
              cases hc : env.createRes obj2 with
              | some e =>
                  simp only [hc, List.mem_cons, List.mem_singleton, List.not_mem_nil, or_false] at h ⊢
                  rcases h with rfl | rfl
                  · exact Or.inl ⟨obj2, rfl⟩
                  · exact Or.inr ⟨obj2, rfl, hp, Or.inl rfl⟩
              | none =>
                  simp only [hc] at h ⊢
                  cases hpa : runChain r.postApply obj2 with
                  | error e =>
                      simp only [hpa, List.mem_cons, List.mem_singleton, List.not_mem_nil, or_false] at h ⊢
                      rcases h with rfl | rfl
                      · exact Or.inl ⟨obj2, rfl⟩
                      · exact Or.inr ⟨obj2, rfl, hp, Or.inl rfl⟩
                  | ok y =>
                      simp only [hpa, List.mem_cons] at h ⊢
                      rcases h with rfl | rfl | h
                      · exact Or.inl ⟨obj2, rfl⟩
                      · exact Or.inr ⟨obj2, rfl, hp, Or.inl rfl⟩
                      · rcases ih c h with ⟨o, rfl⟩ | ⟨o, rfl, hnf, hmem⟩
                        · exact Or.inl ⟨o, rfl⟩
                        · exact Or.inr ⟨o, rfl, hnf, Or.inr (Or.inr hmem)⟩
          | ok =>
              simp only [hp] at h ⊢
              cases hpa : runChain r.postApply obj2 with
              | error e =>
                  simp only [hpa, List.mem_singleton] at h
                  exact Or.inl ⟨obj2, h⟩
              | ok y =>
                  simp only [hpa, List.mem_cons] at h ⊢
                  rcases h with rfl | h
                  · exact Or.inl ⟨obj2, rfl⟩
                  · rcases ih c h with ⟨o, rfl⟩ | ⟨o, rfl, hnf, hmem⟩
                    · exact Or.inl ⟨o, rfl⟩
                    · exact Or.inr ⟨o, rfl, hnf, Or.inr hmem⟩

theorem applyLoop_patch_notFound_create {β Kust Res Raw RtObj Obj : Type}
    (env : Env β Kust Res Raw RtObj Obj) (r : Renderer β Kust Obj)
    (objs : List Obj) (o : Obj) (popts : List PatchOpt)
    (hmem : Call.patch o popts ∈ (applyLoop env r objs).1)
    (hnf : env.patchRes o = PRes.notFound) :
    Call.create o [] ∈ (applyLoop env r objs).1 := by
  induction objs with
  | nil => simp [applyLoop] at hmem
  | cons obj rest ih =>
      rw [applyLoop] at hmem ⊢
      cases hm : runChain r.omutators obj with
      | error e => simp [hm] at hmem
      | ok obj2 =>
          simp only [hm] at hmem ⊢
          cases hp : env.patchRes obj2 with
          | err e =>
              simp only [hp, List.mem_singleton] at hmem
              cases hmem
              rw [hnf] at hp
              exact absurd hp (by simp)
          | notFound =>
              simp only [hp] at hmem ⊢
              cases hc : env.createRes obj2 with
              | some e =>
                  simp only [hc, List.mem_cons, List.mem_singleton, List.not_mem_nil, or_false] at hmem ⊢
                  rcases hmem with hmem | hmem
                  · injection hmem with h1 h2
                    subst h1
                    exact Or.inr rfl
                  · exact absurd hmem (by simp)
              | none =>
                  simp only [hc] at hmem ⊢
                  cases hpa : runChain r.postApply obj2 with
                  | error e =>
                      simp only [hpa, List.mem_cons, List.mem_singleton, List.not_mem_nil, or_false] at hmem ⊢
                      rcases hmem with hmem | hmem
                      · injection hmem with h1 h2
                        subst h1
                        exact Or.inr rfl
                      · exact absurd hmem (by simp)
                  | ok y =>
                      simp only [hpa, List.mem_cons] at hmem ⊢
                      rcases hmem with hmem | hmem | hmem
                      · injection hmem with h1 h2
                        subst h1
                        exact Or.inr (Or.inl rfl)
                      · exact absurd hmem (by simp)
                      · exact Or.inr (Or.inr (ih hmem))
          | ok =>
              simp only [hp] at hmem ⊢
              cases hpa : runChain r.postApply obj2 with
              | error e =>
                  simp only [hpa, List.mem_singleton] at hmem
                  cases hmem
                  rw [hnf] at hp
                  exact absurd hp (by simp)
              | ok y =>
                  simp only [hpa, List.mem_cons] at hmem ⊢
                  rcases hmem with hmem | hmem
                  · injection hmem with h1 h2
                    subst h1
                    rw [hnf] at hp
                    exact absurd hp (by simp)
                  · exact Or.inr (ih hmem)

theorem applyLoop_patch_err_aborts {β Kust Res Raw RtObj Obj : Type}
    (env : Env β Kust Res Raw RtObj Obj) (r : Renderer β Kust Obj)
    (objs : List Obj) (o : Obj) (popts : List PatchOpt) (e : String)
    (hmem : Call.patch o popts ∈ (applyLoop env r objs).1)
    (herr : env.patchRes o = PRes.err e) :
    (applyLoop env r objs).2 = some ("error patching object: " ++ e) := by
  induction objs with
  | nil => simp [applyLoop] at hmem
  | cons obj rest ih =>
      rw [applyLoop] at hmem ⊢
      cases hm : runChain r.omutators obj with
      | error e2 => simp [hm] at hmem
      | ok obj2 =>
          simp only [hm] at hmem ⊢
          cases hp : env.patchRes obj2 with
          | err e2 =>
              simp only [hp, List.mem_singleton] at hmem ⊢
              cases hmem
              rw [herr] at hp
              injection hp with h1
              rw [h1]
          | notFound =>
              simp only [hp] at hmem ⊢
              cases hc : env.createRes obj2 with
              | some e2 =>
                  simp only [hc, List.mem_cons, List.mem_singleton, List.not_mem_nil, or_false] at hmem ⊢
                  rcases hmem with hmem | hmem
                  · injection hmem with h1 h2
                    subst h1
                    rw [herr] at hp
                    exact absurd hp (by simp)
                  · exact absurd hmem (by simp)
              | none =>
                  simp only [hc] at hmem ⊢
                  cases hpa : runChain r.postApply obj2 with
                  | error e2 =>
                      simp only [hpa, List.mem_cons, List.mem_singleton, List.not_mem_nil, or_false] at hmem ⊢
                      rcases hmem with hmem | hmem
                      · injection hmem with h1 h2
                        subst h1
                        rw [herr] at hp
                        exact absurd hp (by simp)
                      · exact absurd hmem (by simp)
                  | ok y =>
                      simp only [hpa, List.mem_cons] at hmem ⊢
                      rcases hmem with hmem | hmem | hmem
                      · injection hmem with h1 h2
                        subst h1
                        rw [herr] at hp
                        exact absurd hp (by simp)
                      · exact absurd hmem (by simp)
                      · exact ih hmem
          | ok =>
              simp only [hp] at hmem ⊢
              cases hpa : runChain r.postApply obj2 with
              | error e2 =>
                  simp only [hpa, List.mem_singleton] at hmem ⊢
                  cases hmem
                  rw [herr] at hp
                  exact absurd hp (by simp)
              | ok y =>
                  simp only [hpa, List.mem_cons] at hmem ⊢
                  rcases hmem with hmem | hmem
                  · injection hmem with h1 h2
                    subst h1
                    rw [herr] at hp
                    exact absurd hp (by simp)
                  · exact ih hmem

/-! ### Characterization of the deletion loop of `Delete` -/

theorem deleteLoop_all_notFound {β Kust Res Raw RtObj Obj : Type}
    (env : Env β Kust Res Raw RtObj Obj) (r : Renderer β Kust Obj)
    (objs : List Obj)
    (h : ∀ o ∈ objs, ∃ o2, runChain r.omutators o = Except.ok o2 ∧
      env.deleteRes o2 = PRes.notFound) :
    (deleteLoop env r objs).2 = none := by
  induction objs with
  | nil => simp [deleteLoop]
  | cons obj rest ih =>
      obtain ⟨o2, hm, hd⟩ := h obj (List.mem_cons_self obj rest)
      rw [deleteLoop]
      simp only [hm, hd]
      exact ih (fun o ho => h o (List.mem_cons_of_mem obj ho))

theorem deleteLoop_err_aborts {β Kust Res Raw RtObj Obj : Type}
    (env : Env β Kust Res Raw RtObj Obj) (r : Renderer β Kust Obj)
    (objs : List Obj) (o : Obj) (e : String)
    (hmem : Call.delete o ∈ (deleteLoop env r objs).1)
    (herr : env.deleteRes o = PRes.err e) :
    (deleteLoop env r objs).2 = some ("error deleting object: " ++ e) := by
  induction objs with
  | nil => simp [deleteLoop] at hmem
  | cons obj rest ih =>
      rw [deleteLoop] at hmem ⊢
      cases hm : runChain r.omutators obj with
      | error e2 => simp [hm] at hmem
      | ok obj2 =>
          simp only [hm] at hmem ⊢
          cases hd : env.deleteRes obj2 with
          | ok =>
              simp only [hd, List.mem_cons] at hmem ⊢
              rcases hmem with hmem | hmem
              · injection hmem with h1
                subst h1
                rw [herr] at hd
                exact absurd hd (by simp)
              · exact ih hmem
          | notFound =>
              simp only [hd, List.mem_cons] at hmem ⊢
              rcases hmem with hmem | hmem
              · injection hmem with h1
                subst h1
                rw [herr] at hd
                exact absurd hd (by simp)
              · exact ih hmem
          | err e2 =>
              simp only [hd, List.mem_singleton] at hmem ⊢
              injection hmem with h1
              subst h1
              rw [herr] at hd
              injection hd with h2
              rw [h2]

/-! ### Conversion failures abort the whole parse -/

theorem convertAll_error_of_mem {β Kust Res Raw RtObj Obj : Type}
    (env : Env β Kust Res Raw RtObj Obj) (r : Renderer β Kust Obj)
    (hu : r.unstructured = false) (ress : List Res) (rsc : Res) (e : String)
    (hmem : rsc ∈ ress) (herr : typedObject env rsc = Except.error e) :
    ∃ e2, convertAll env r ress = Except.error e2 ∧
      ∃ rsc2 ∈ ress, typedObject env rsc2 = Except.error e2 := by
  induction ress with
  | nil => simp at hmem
  | cons hd rest ih =>
      rw [convertAll]
      simp only [hu, Bool.false_eq_true, if_false]
      cases ht : typedObject env hd with
      | error e2 => exact ⟨e2, rfl, hd, List.mem_cons_self hd rest, ht⟩
      | ok o =>
          have hne : rsc ≠ hd := by
            intro heq
            rw [heq, ht] at herr
            exact Except.noConfusion herr
          have hmem2 : rsc ∈ rest := by
            rcases List.mem_cons.mp hmem with h | h
            · exact absurd h hne
            · exact h
          obtain ⟨e2, hconv, rsc2, hmem3, herr2⟩ := ih hmem2
          rw [hconv]
          exact ⟨e2, rfl, rsc2, List.mem_cons_of_mem hd hmem3, herr2⟩

/-! ### Chains of append-stamping mutators run in order -/

theorem runChain_appendStamp (ss : List Nat) :
    ∀ x : List Nat, runChain (ss.map appendStamp) x = Except.ok (x ++ ss) := by
  induction ss with
  | nil => intro x; simp [runChain]
  | cons s rest ih =>
      intro x
      simp only [List.map_cons, runChain, appendStamp]
      rw [ih (x ++ [s])]
      simp

/-! ### Options registered through the constructor accumulate in order -/

theorem foldl_fsStampOpts (ss : List Nat) :
    ∀ r : Renderer (List Nat) (List Nat) (List Nat),
      (ss.map fsStampOpt).foldl (fun r o => o r) r =
        { r with fsmutators := r.fsmutators ++ ss.map fsStampFn } := by
  induction ss with
  | nil => intro r; simp
  | cons s rest ih =>
      intro r
      simp only [List.map_cons, List.foldl_cons]
      rw [ih]
      simp [fsStampOpt, WithFSMutator]

theorem foldl_kStampOpts (ss : List Nat) :
    ∀ r : Renderer (List Nat) (List Nat) (List Nat),
      (ss.map kStampOpt).foldl (fun r o => o r) r =
        { r with kmutators := r.kmutators ++ ss.map appendStamp } := by
  induction ss with
  | nil => intro r; simp
  | cons s rest ih =>
      intro r
      simp only [List.map_cons, List.foldl_cons]
      rw [ih]
      simp [kStampOpt, WithKustomizeMutator]

theorem foldl_oStampOpts (ss : List Nat) :
    ∀ r : Renderer (List Nat) (List Nat) (List Nat),
      (ss.map oStampOpt).foldl (fun r o => o r) r =
        { r with omutators := r.omutators ++ ss.map appendStamp } := by
  induction ss with
  | nil => intro r; simp
  | cons s rest ih =>
      intro r
      simp only [List.map_cons, List.foldl_cons]
      rw [ih]
      simp [oStampOpt, WithObjectMutator]

theorem foldl_pStampOpts (ss : List Nat) :
    ∀ r : Renderer (List Nat) (List Nat) (List Nat),
      (ss.map pStampOpt).foldl (fun r o => o r) r =
        { r with postApply := r.postApply ++ ss.map appendStamp } := by
  induction ss with
  | nil => intro r; simp
  | cons s rest ih =>
      intro r
      simp only [List.map_cons, List.foldl_cons]
      rw [ih]
      simp [pStampOpt, WithPostApplyAction]

theorem rStamp_eq (fsS kS oS : List Nat) :
    rStamp fsS kS oS =
      { fromEmb := embL, fieldOwner := "plumber", forceOwner := false,
        unstructured := false, kmutators := kS.map appendStamp,
        omutators := oS.map appendStamp, postApply := [],
        fsmutators := fsS.map fsStampFn } := by
  unfold rStamp NewRenderer
  rw [List.foldl_append, List.foldl_append, foldl_fsStampOpts, foldl_kStampOpts,
    foldl_oStampOpts]
  simp

/-! ### The stamped pipeline, stage by stage -/

theorem runChain_fsStamp (ss : List Nat) :
    ∀ (fs : FS (List Nat)) (cur : List Nat),
      readFile fs BaseKustomizationPath = some cur →
      runChain (ss.map fsStampFn) fs =
        Except.ok (writeFile fs BaseKustomizationPath (cur ++ ss)) := by
  induction ss with
  | nil =>
      intro fs cur h
      simp [runChain, writeFile_readFile_eq fs BaseKustomizationPath cur h]
  | cons s rest ih =>
      intro fs cur h
      simp only [List.map_cons, runChain, fsStampFn, h, Option.getD_some]
      rw [ih (writeFile fs BaseKustomizationPath (cur ++ [s])) (cur ++ [s])
        (readFile_writeFile_same fs BaseKustomizationPath (cur ++ [s]))]
      rw [writeFile_writeFile_same]
      simp

theorem mutateKustomization_stamp (r : Renderer (List Nat) (List Nat) (List Nat))
    (kS : List Nat) (hk : r.kmutators = kS.map appendStamp)
    (fs : FS (List Nat)) (cur : List Nat)
    (h : readFile fs BaseKustomizationPath = some cur) :
    ∃ fs2, mutateKustomization envL r fs = Except.ok fs2 ∧
      readFile fs2 BaseKustomizationPath = some (cur ++ kS) := by
  unfold mutateKustomization
  rw [hk]
  cases kS with
  | nil => exact ⟨fs, by simp, by simpa using h⟩
  | cons s rest =>
      refine ⟨writeFile fs BaseKustomizationPath (cur ++ (s :: rest)), ?_, ?_⟩
      · simp only [List.map_cons, List.isEmpty_cons, if_false, Bool.false_eq_true, h]
        have hrun := runChain_appendStamp (s :: rest) cur
        simp only [List.map_cons] at hrun
        simp [envL, hrun]
      · exact readFile_writeFile_same fs BaseKustomizationPath (cur ++ (s :: rest))

theorem typedObject_envL (x : List Nat) : typedObject envL x = Except.ok x := rfl

theorem convertAll_envL (r : Renderer (List Nat) (List Nat) (List Nat))
    (hu : r.unstructured = false) :
    ∀ l : List (List Nat), convertAll envL r l = Except.ok l := by
  intro l
  induction l with
  | nil => rfl
  | cons x rest ih =>
      rw [convertAll]
      simp only [hu, Bool.false_eq_true, if_false, typedObject_envL, ih]

theorem applyLoop_envL_single (r : Renderer (List Nat) (List Nat) (List Nat))
    (oS : List Nat) (ho : r.omutators = oS.map appendStamp)
    (hp : r.postApply = []) (x : List Nat) :
    applyLoop envL r [x] = ([Call.patch (x ++ oS) (patchOpts r)], none) := by
  rw [applyLoop, ho, runChain_appendStamp oS x, hp]
  simp [envL, runChain, applyLoop]

/-! ### The identity environment turns composed resources into objects -/

theorem typedObject_envSeq (R : List Nat) (x : Nat) :
    typedObject (envSeq R) x = Except.ok x := rfl

theorem convertAll_envSeq (R : List Nat) (r : Renderer Nat Nat Nat)
    (hu : r.unstructured = false) :
    ∀ l : List Nat, convertAll (envSeq R) r l = Except.ok l := by
  intro l
  induction l with
  | nil => rfl
  | cons x rest ih =>
      rw [convertAll]
      simp only [hu, Bool.false_eq_true, if_false, typedObject_envSeq R x, ih]

theorem applyLoop_envSeq (R : List Nat) :
    ∀ l : List Nat, applyLoop (envSeq R) rNat l =
      (l.map (fun o => Call.patch o [PatchOpt.fieldOwner "plumber"]), none) := by
  intro l
  induction l with
  | nil => rfl
  | cons x rest ih =>
      rw [applyLoop]
      have h1 : rNat.omutators = [] := rfl
      have h2 : (envSeq R).patchRes x = PRes.ok := rfl
      have h3 : rNat.postApply = [] := rfl
      have h4 : patchOpts rNat = [PatchOpt.fieldOwner "plumber"] := rfl
      simp only [h1, h2, h3, h4, runChain, ih, List.map_cons]

/-! ### Concrete evaluation of the loader on the stamp tree -/

theorem LoadFS_embL :
    LoadFS embL = [("/kustomize/base/kustomization.yaml", ([] : List Nat))] := by
  unfold LoadFS embL
  simp only [readdir, readdirEntry]
  decide

theorem readFile_LoadFS_embL :
    readFile (LoadFS embL) BaseKustomizationPath = some ([] : List Nat) := by
  rw [LoadFS_embL]
  decide

/-- The whole stamped parse: filesystem stamps land in the descriptor file,
kustomization stamps are appended by the descriptor hooks, and composition
emits the resulting content as the single object. -/
theorem parseFrom_stamp (r : Renderer (List Nat) (List Nat) (List Nat))
    (fsS kS : List Nat)
    (hfs : r.fsmutators = fsS.map fsStampFn)
    (hk : r.kmutators = kS.map appendStamp)
    (hu : r.unstructured = false)
    (fs : FS (List Nat)) (h0 : readFile fs BaseKustomizationPath = some []) :
    parseFrom envL r fs "base" = Except.ok [fsS ++ kS] := by
  unfold parseFrom
  rw [hfs, runChain_fsStamp fsS fs [] h0]
  simp only [List.nil_append]
  obtain ⟨fsX, hmk, hread⟩ := mutateKustomization_stamp r kS hk
    (writeFile fs BaseKustomizationPath fsS) fsS
    (readFile_writeFile_same fs BaseKustomizationPath fsS)
  simp only [hmk]
  have h3 : envL.krustyRun fsX (pathJoin "kustomize" "base") =
      Except.ok [fsS ++ kS] := by
    show Except.ok [(readFile fsX BaseKustomizationPath).getD []] = _
    rw [hread]
    rfl
  simp only [h3]
  exact convertAll_envL r hu [fsS ++ kS]

/-! ### Field-owner preservation by non-owner options -/

theorem nonOwner_fieldOwner {β Kust Obj : Type} (f : POption β Kust Obj)
    (h : IsNonOwnerOption f) (r : Renderer β Kust Obj) :
    (f r).fieldOwner = r.fieldOwner := by
  rcases h with rfl | rfl | ⟨m, rfl⟩ | ⟨m, rfl⟩ | ⟨a, rfl⟩ | ⟨m, rfl⟩ <;> rfl

theorem foldl_nonOwner_fieldOwner {β Kust Obj : Type}
    (opts : List (POption β Kust Obj)) :
    (∀ f ∈ opts, IsNonOwnerOption f) → ∀ r : Renderer β Kust Obj,
      (opts.foldl (fun r o => o r) r).fieldOwner = r.fieldOwner := by
  induction opts with
  | nil => intro _ r; rfl
  | cons f rest ih =>
      intro h r
      rw [List.foldl_cons]
      rw [ih (fun g hg => h g (List.mem_cons_of_mem f hg)) (f r)]
      exact nonOwner_fieldOwner f (h f (List.mem_cons_self f rest)) r

/-! ### The claims -/

/-- C1: for every object submitted by `Apply`, the renderer first issues a
server-side-apply patch carrying the configured field-owner (plus forced
ownership when configured); a create is issued exactly for objects whose
patch reported not-found — never for one whose patch succeeded — and a
patch error other than not-found aborts the whole render with that error. -/
theorem claim1_patch_then_create {β Kust Res Raw RtObj Obj : Type}
    (env : Env β Kust Res Raw RtObj Obj) (r : Renderer β Kust Obj)
    (overlay : String) :
    (∀ o copts, Call.create o copts ∈ (Apply env r overlay).1 →
      env.patchRes o = PRes.notFound ∧ copts = [] ∧
        Call.patch o (patchOpts r) ∈ (Apply env r overlay).1) ∧
    (∀ o popts, Call.patch o popts ∈ (Apply env r overlay).1 →
      popts = patchOpts r) ∧
    (∀ o popts, Call.patch o popts ∈ (Apply env r overlay).1 →
      env.patchRes o = PRes.notFound →
      Call.create o [] ∈ (Apply env r overlay).1) ∧
    (∀ o popts e, Call.patch o popts ∈ (Apply env r overlay).1 →
      env.patchRes o = PRes.err e →
      (Apply env r overlay).2 = some ("error patching object: " ++ e)) := by
  unfold Apply
  cases hp : parse env r overlay with
  | error e =>
      refine ⟨?_, ?_, ?_, ?_⟩
      · intro o copts hmem; simp at hmem
      · intro o popts hmem; simp at hmem
      · intro o popts hmem; simp at hmem
      · intro o popts e2 hmem; simp at hmem
  | ok objs =>
      refine ⟨?_, ?_, ?_, ?_⟩
      · intro o copts hmem
        rcases applyLoop_calls env r objs _ hmem with ⟨o2, heq⟩ | ⟨o2, heq, hnf, hpm⟩
        · exact absurd heq (by simp)
        · injection heq with h1 h2
          subst h1
          subst h2
          exact ⟨hnf, rfl, hpm⟩
      · intro o popts hmem
        rcases applyLoop_calls env r objs _ hmem with ⟨o2, heq⟩ | ⟨o2, heq, hnf, hpm⟩
        · injection heq with h1 h2
        · exact absurd heq (by simp)
      · intro o popts hmem hnf
        exact applyLoop_patch_notFound_create env r objs o popts hmem hnf
      · intro o popts e2 hmem herr
        exact applyLoop_patch_err_aborts env r objs o popts e2 hmem herr

/-- Witness for C1: with a cluster reporting not-found for every patch, the
single composed object is created, and the theorem recovers the not-found
verdict and the preceding patch call from the trace. -/
theorem claim1_witness :
    Call.create (7 : Nat) ([] : List CreateOpt) ∈ (Apply envW1 rNat "base").1 ∧
    envW1.patchRes 7 = PRes.notFound ∧
    Call.patch (7 : Nat) (patchOpts rNat) ∈ (Apply envW1 rNat "base").1 :=
  ⟨by decide,
    ((claim1_patch_then_create envW1 rNat "base").1 7 [] (by decide)).1,
    ((claim1_patch_then_create envW1 rNat "base").1 7 [] (by decide)).2.2⟩

/-- Counterexample to C2 as stated: when the failing per-object hook on the
second of three composed objects is a post-apply action, the second object
has already been patched before the action runs — the render makes two
cluster-submission calls, not exactly one, and the second object did
receive a submission. -/
theorem claim2_counterexample :
    Apply env2 rPA "base" =
      ([Call.patch (1 : Nat) (patchOpts rPA), Call.patch 2 (patchOpts rPA)],
        some "error running post apply action: post boom") ∧
    (Apply env2 rPA "base").1.length ≠ 1 ∧
    Call.patch (2 : Nat) (patchOpts rPA) ∈ (Apply env2 rPA "base").1 :=
  ⟨rfl, by decide, by decide⟩

/-- C2 (amended): if the object-mutator chain fails on the second of three
composed objects (the first object's patch and post-apply actions having
succeeded), exactly one cluster submission is made — the first object's
patch — nothing is submitted for the second or third object, and `Apply`
returns the hook's error; if instead a post-apply action fails on the
second object (both patches succeeding), the second object has already been
submitted: exactly the first two patches are in the trace and the third
object gets no submission.  Either way the first error stops the pipeline
with a non-nil error, no retry and no rollback. -/
theorem claim2_fail_fast {β Kust Res Raw RtObj Obj : Type}
    (env : Env β Kust Res Raw RtObj Obj) (r : Renderer β Kust Obj)
    (overlay : String) (o1 o2 o3 : Obj) :
    (∀ o1m e, parse env r overlay = Except.ok [o1, o2, o3] →
      runChain r.omutators o1 = Except.ok o1m →
      env.patchRes o1m = PRes.ok →
      (∃ y, runChain r.postApply o1m = Except.ok y) →
      runChain r.omutators o2 = Except.error e →
      Apply env r overlay =
        ([Call.patch o1m (patchOpts r)],
          some ("error mutating object: " ++ e))) ∧
    (∀ o1m o2m e, parse env r overlay = Except.ok [o1, o2, o3] →
      runChain r.omutators o1 = Except.ok o1m →
      env.patchRes o1m = PRes.ok →
      (∃ y, runChain r.postApply o1m = Except.ok y) →
      runChain r.omutators o2 = Except.ok o2m →
      env.patchRes o2m = PRes.ok →
      runChain r.postApply o2m = Except.error e →
      Apply env r overlay =
        ([Call.patch o1m (patchOpts r), Call.patch o2m (patchOpts r)],
          some ("error running post apply action: " ++ e))) := by
  constructor
  · intro o1m e hparse hm1 hp1 hpa hm2
    obtain ⟨y, hy⟩ := hpa
    unfold Apply
    rw [hparse]
    simp [applyLoop, hm1, hp1, hy, hm2]
  · intro o1m o2m e hparse hm1 hp1 hpa hm2 hp2 hpa2
    obtain ⟨y, hy⟩ := hpa
    unfold Apply
    rw [hparse]
    simp [applyLoop, hm1, hp1, hy, hm2, hp2, hpa2]

/-- Witness for the amended C2: the object-mutator failure on object `2`
leaves one patch in the trace; the post-apply failure on object `2` leaves
the first two patches in the trace. -/
theorem claim2_witness :
    Apply env2 r2 "base" =
      ([Call.patch (1 : Nat) (patchOpts r2)],
        some "error mutating object: boom") ∧
    Apply env2 rPA "base" =
      ([Call.patch (1 : Nat) (patchOpts rPA), Call.patch 2 (patchOpts rPA)],
        some "error running post apply action: post boom") :=
  ⟨(claim2_fail_fast env2 r2 "base" 1 2 3).1 1 "boom" rfl rfl rfl ⟨1, rfl⟩ rfl,
    (claim2_fail_fast env2 rPA "base" 1 2 3).2 1 2 "post boom"
      rfl rfl rfl ⟨1, rfl⟩ rfl rfl rfl⟩

/-- C3: in typed mode, a composed resource whose group/version/kind the
scheme cannot instantiate (or whose instance lacks the client-object
capability) makes the whole render fail with a conversion error and an
empty cluster trace, even when every other resource converts. -/
theorem claim3_conversion_failure_aborts {β Kust Res Raw RtObj Obj : Type}
    (env : Env β Kust Res Raw RtObj Obj) (r : Renderer β Kust Obj)
    (overlay : String) (fs2 fs3 : FS β) (ress : List Res) (rsc : Res)
    (e : String) (hu : r.unstructured = false)
    (h1 : runChain r.fsmutators (LoadFS r.fromEmb) = Except.ok fs2)
    (h2 : mutateKustomization env r fs2 = Except.ok fs3)
    (h3 : env.krustyRun fs3 (pathJoin "kustomize" overlay) = Except.ok ress)
    (hmem : rsc ∈ ress) (herr : typedObject env rsc = Except.error e) :
    (∀ rsc2 e0, env.schemeNew (env.resGvk rsc2) = Except.error e0 →
      typedObject env rsc2 =
        Except.error ("unable to instantiate runtime object: " ++ e0)) ∧
    (∀ rsc2 robj raw robj2, env.schemeNew (env.resGvk rsc2) = Except.ok robj →
      env.resMarshalJSON rsc2 = Except.ok raw →
      env.jsonUnmarshal raw robj = Except.ok robj2 →
      env.castClientObj robj2 = none →
      typedObject env rsc2 =
        Except.error (env.rtGvkString robj2 ++ " is not client.Object")) ∧
    ∃ e2, (∃ rsc2 ∈ ress, typedObject env rsc2 = Except.error e2) ∧
      parse env r overlay = Except.error e2 ∧
      Apply env r overlay =
        ([], some ("error parsing kustomize files: " ++ e2)) := by
  refine ⟨?_, ?_, ?_⟩
  · intro rsc2 e0 hs
    unfold typedObject
    rw [hs]
  · intro rsc2 robj raw robj2 hs hm hj hc
    unfold typedObject
    simp only [hs, hm, hj, hc]
  · obtain ⟨e2, hconv, rsc2, hmem2, herr2⟩ :=
      convertAll_error_of_mem env r hu ress rsc e hmem herr
    have hparse : parse env r overlay = Except.error e2 := by
      unfold parse parseFrom
      simp only [h1, h2, h3]
      exact hconv
    refine ⟨e2, ⟨rsc2, hmem2, herr2⟩, hparse, ?_⟩
    unfold Apply
    rw [hparse]

/-- Witness for C3: resource `2` carries the unregistered kind `"Bad"`
while resource `1` is resolvable; the render fails and submits nothing. -/
theorem claim3_witness :
    ∃ e2, (∃ rsc2 ∈ [1, 2], typedObject env3 rsc2 = Except.error e2) ∧
      parse env3 rNat "base" = Except.error e2 ∧
      Apply env3 rNat "base" =
        ([], some ("error parsing kustomize files: " ++ e2)) :=
  (claim3_conversion_failure_aborts env3 rNat "base" (LoadFS embNat)
    (LoadFS embNat) [1, 2] 2
    "unable to instantiate runtime object: no kind is registered"
    rfl rfl rfl rfl (by decide) rfl).2.2

/-- C4: deleting an overlay whose objects are already absent returns no
error — not-found on a per-object delete is success and processing
continues — while any other delete error aborts with that error. -/
theorem claim4_delete_idempotent {β Kust Res Raw RtObj Obj : Type}
    (env : Env β Kust Res Raw RtObj Obj) (r : Renderer β Kust Obj)
    (overlay : String) :
    (∀ objs, parse env r overlay = Except.ok objs →
      (∀ o ∈ objs, ∃ o2, runChain r.omutators o = Except.ok o2 ∧
        env.deleteRes o2 = PRes.notFound) →
      (Delete env r overlay).2 = none) ∧
    (∀ o e, Call.delete o ∈ (Delete env r overlay).1 →
      env.deleteRes o = PRes.err e →
      (Delete env r overlay).2 = some ("error deleting object: " ++ e)) := by
  unfold Delete
  constructor
  · intro objs hp hall
    rw [hp]
    exact deleteLoop_all_notFound env r objs hall
  · intro o e hmem herr
    cases hp : parse env r overlay with
    | error e2 =>
        rw [hp] at hmem
        simp at hmem
    | ok objs =>
        rw [hp] at hmem
        exact deleteLoop_err_aborts env r objs o e hmem herr

/-- Witness for C4: both composed objects report not-found on delete and
`Delete` returns no error. -/
theorem claim4_witness : (Delete env4 rNat "base").2 = none :=
  (claim4_delete_idempotent env4 rNat "base").1 [1, 2] rfl
    (fun o _ => ⟨o, rfl, rfl⟩)

/-- C5: objects are submitted in exactly the order the composition engine
returns them; stamping hooks show that filesystem hooks run before
kustomization hooks, which affect composition, which precedes the object
hooks, each category executing in registration order; post-apply actions
also run in registration order. -/
theorem claim5_ordering :
    (∀ ress : List Nat, Apply (envSeq ress) rNat "overlay" =
      (ress.map (fun o => Call.patch o [PatchOpt.fieldOwner "plumber"]), none)) ∧
    (∀ fsS kS oS : List Nat, Apply envL (rStamp fsS kS oS) "base" =
      ([Call.patch (fsS ++ kS ++ oS) [PatchOpt.fieldOwner "plumber"]], none)) ∧
    (∀ pS : List Nat,
      runChain ((NewRenderer embL (pS.map pStampOpt)).postApply) [] =
        Except.ok pS) := by
  refine ⟨?_, ?_, ?_⟩
  · intro R
    have hp : parse (envSeq R) rNat "overlay" = Except.ok R := by
      show parseFrom (envSeq R) rNat (LoadFS rNat.fromEmb) "overlay" = _
      unfold parseFrom
      have h1 : rNat.fsmutators = [] := rfl
      rw [h1]
      simp only [runChain]
      have h2 : mutateKustomization (envSeq R) rNat (LoadFS rNat.fromEmb) =
          Except.ok (LoadFS rNat.fromEmb) := rfl
      have h3 : (envSeq R).krustyRun (LoadFS rNat.fromEmb)
          (pathJoin "kustomize" "overlay") = Except.ok R := rfl
      simp only [h2, h3]
      exact convertAll_envSeq R rNat rfl R
    unfold Apply
    rw [hp]
    exact applyLoop_envSeq R R
  · intro fsS kS oS
    have hr := rStamp_eq fsS kS oS
    have hp : parse envL (rStamp fsS kS oS) "base" = Except.ok [fsS ++ kS] := by
      unfold parse
      exact parseFrom_stamp (rStamp fsS kS oS) fsS kS
        (by rw [hr]) (by rw [hr]) (by rw [hr])
        (LoadFS (rStamp fsS kS oS).fromEmb)
        (by rw [hr]; exact readFile_LoadFS_embL)
    unfold Apply
    rw [hp]
    show applyLoop envL (rStamp fsS kS oS) [fsS ++ kS] =
      ([Call.patch (fsS ++ kS ++ oS) [PatchOpt.fieldOwner "plumber"]], none)
    rw [applyLoop_envL_single (rStamp fsS kS oS) oS (by rw [hr]) (by rw [hr])
      (fsS ++ kS)]
    have hopts : patchOpts (rStamp fsS kS oS) = [PatchOpt.fieldOwner "plumber"] := by
      rw [hr]
      rfl
    rw [hopts]
  · intro pS
    unfold NewRenderer
    rw [foldl_pStampOpts]
    simpa using runChain_appendStamp pS []

/-- C6 (amended): the decode/hook/re-encode/write-back of the base
kustomization happens exactly when at least one descriptor hook is
registered; with zero hooks the step is skipped and the tree is returned
untouched. -/
theorem claim6_descriptor_mutation {β Kust Res Raw RtObj Obj : Type}
    (env : Env β Kust Res Raw RtObj Obj) (r : Renderer β Kust Obj)
    (fs : FS β) :
    (r.kmutators = [] → mutateKustomization env r fs = Except.ok fs) ∧
    (∀ c k k2 d, r.kmutators ≠ [] →
      readFile fs BaseKustomizationPath = some c →
      env.yamlUnmarshalKust c = Except.ok k →
      runChain r.kmutators k = Except.ok k2 →
      env.yamlMarshalKust k2 = Except.ok d →
      mutateKustomization env r fs =
        Except.ok (writeFile fs BaseKustomizationPath d)) := by
  constructor
  · intro h
    unfold mutateKustomization
    rw [h]
    rfl
  · intro c k k2 d hne hrf hyu hrc hym
    have hie : r.kmutators.isEmpty = false := by
      cases hq : r.kmutators with
      | nil => exact absurd hq hne
      | cons a as => rfl
    unfold mutateKustomization
    simp only [hie, Bool.false_eq_true, if_false, hrf, hyu, hrc, hym]

/-- Counterexample to C6 as stated: with zero descriptor hooks the code
skips the decode/re-encode/write-back entirely — the returned tree still
carries content `0` although re-encoding the decoded descriptor would have
stored `1`. -/
theorem claim6_counterexample :
    mutateKustomization envSkip rNat fs6 = Except.ok fs6 ∧
    envSkip.yamlUnmarshalKust 0 = Except.ok 0 ∧
    envSkip.yamlMarshalKust 0 = Except.ok 1 ∧
    readFile fs6 BaseKustomizationPath = some 0 ∧
    readFile (writeFile fs6 BaseKustomizationPath 1) BaseKustomizationPath =
      some 1 ∧
    fs6 ≠ writeFile fs6 BaseKustomizationPath 1 :=
  ⟨rfl, rfl, rfl, rfl, rfl, by decide⟩

/-- Witness for the amended C6: with one registered hook the descriptor is
decoded, mutated, re-encoded and written back; with zero hooks the tree is
untouched. -/
theorem claim6_witness :
    mutateKustomization envSkip r6 fs6 =
      Except.ok (writeFile fs6 BaseKustomizationPath 11) ∧
    mutateKustomization envSkip rNat fs6 = Except.ok fs6 :=
  ⟨(claim6_descriptor_mutation envSkip r6 fs6).2 0 0 10 11
      (by simp [r6, NewRenderer, WithKustomizeMutator]) rfl rfl rfl rfl,
    (claim6_descriptor_mutation envSkip rNat fs6).1 rfl⟩

/-- C7: `Delete` runs the same parse pipeline as `Apply` — including the
object-mutation hooks, applied to each object before its delete request —
and never invokes any post-apply action: its outcome is independent of the
registered post-apply actions. -/
theorem claim7_delete_same_pipeline {β Kust Res Raw RtObj Obj : Type}
    (env : Env β Kust Res Raw RtObj Obj) (r : Renderer β Kust Obj)
    (overlay : String) :
    (∀ ps, Delete env { r with postApply := ps } overlay =
      Delete env r overlay) ∧
    (∀ o rest o2, runChain r.omutators o = Except.ok o2 →
      (env.deleteRes o2 = PRes.ok ∨ env.deleteRes o2 = PRes.notFound) →
      deleteLoop env r (o :: rest) =
        (Call.delete o2 :: (deleteLoop env r rest).1,
          (deleteLoop env r rest).2)) ∧
    (∀ e, parse env r overlay = Except.error e →
      Delete env r overlay =
        ([], some ("error parsing kustomize files: " ++ e))) := by
  refine ⟨?_, ?_, ?_⟩
  · intro ps
    unfold Delete
    rw [parse_congr env { r with postApply := ps } r rfl rfl rfl rfl overlay]
    cases hq : parse env r overlay with
    | error e => rfl
    | ok objs => exact deleteLoop_congr env { r with postApply := ps } r rfl objs
  · intro o rest o2 hm hd
    rw [deleteLoop, hm]
    rcases hd with hd | hd <;> simp [hd]
  · intro e h
    unfold Delete
    rw [h]

/-- Witness for C7: the object mutator output is what gets deleted, and a
parse failure yields an empty delete trace. -/
theorem claim7_witness :
    deleteLoop env4 rNat [1, 2] =
      (Call.delete (1 : Nat) :: (deleteLoop env4 rNat [2]).1,
        (deleteLoop env4 rNat [2]).2) ∧
    Delete env9 rNat "base" =
      ([], some "error parsing kustomize files: error running kustomize: kustomize exploded") :=
  ⟨(claim7_delete_same_pipeline env4 rNat "base").2.1 1 [2] 1 rfl (Or.inr rfl),
    (claim7_delete_same_pipeline env9 rNat "base").2.2
      "error running kustomize: kustomize exploded" rfl⟩

/-- C8: each render starts from a fresh in-memory copy of the embedded
source: the loader produces exactly the files of the read-only tree,
`parse` operates on that per-render copy, and writes performed during a
render land in the copy. -/
theorem claim8_source_immutable {β Kust Res Raw RtObj Obj : Type} :
    (∀ emb : Emb β, LoadFS emb =
      (entriesFiles "." emb).foldl (fun fs pc => writeFile fs pc.1 pc.2) []) ∧
    (∀ (env : Env β Kust Res Raw RtObj Obj) (r : Renderer β Kust Obj)
        (overlay : String),
      parse env r overlay = parseFrom env r (LoadFS r.fromEmb) overlay) ∧
    (∀ (emb : Emb β) (p : String) (c : β),
      readFile (writeFile (LoadFS emb) p c) p = some c) :=
  ⟨fun emb => readdir_files "." emb [],
    fun _ _ _ => rfl,
    fun emb p c => readFile_writeFile_same (LoadFS emb) p c⟩

/-- C9: when any pre-submission stage fails (any `parse` error: source
load, filesystem hooks, descriptor mutation, composition or conversion),
both `Apply` and `Delete` return the wrapped error with an empty cluster
trace, leaving the cluster untouched. -/
theorem claim9_parse_error_no_calls {β Kust Res Raw RtObj Obj : Type}
    (env : Env β Kust Res Raw RtObj Obj) (r : Renderer β Kust Obj)
    (overlay : String) (e : String)
    (h : parse env r overlay = Except.error e) :
    Apply env r overlay = ([], some ("error parsing kustomize files: " ++ e)) ∧
    Delete env r overlay =
      ([], some ("error parsing kustomize files: " ++ e)) := by
  unfold Apply Delete
  rw [h]
  exact ⟨rfl, rfl⟩

/-- Witness for C9 with a failing composition engine. -/
theorem claim9_witness :
    Apply env9 rNat "base" =
      ([], some "error parsing kustomize files: error running kustomize: kustomize exploded") :=
  (claim9_parse_error_no_calls env9 rNat "base"
    "error running kustomize: kustomize exploded" rfl).1

/-- C10: the fallback create is issued bare — no field-owner, no forced
ownership — although the preceding patch for the same object carried the
field-owner (and force when configured); and the field-owner identity
defaults to `"plumber"` when the caller configures none. -/
theorem claim10_create_plain_default_owner {β Kust Res Raw RtObj Obj : Type} :
    (∀ (env : Env β Kust Res Raw RtObj Obj) (r : Renderer β Kust Obj)
        (overlay : String) (o : Obj) (copts : List CreateOpt),
      Call.create o copts ∈ (Apply env r overlay).1 →
        copts = [] ∧
        Call.patch o (PatchOpt.fieldOwner r.fieldOwner ::
          (if r.forceOwner then [PatchOpt.forceOwnership] else [])) ∈
          (Apply env r overlay).1) ∧
    (∀ (emb : Emb β) (opts : List (POption β Kust Obj)),
      (∀ f ∈ opts, IsNonOwnerOption f) →
      (NewRenderer emb opts).fieldOwner = "plumber") := by
  constructor
  · intro env r overlay o copts hmem
    unfold Apply at hmem ⊢
    cases hp : parse env r overlay with
    | error e => rw [hp] at hmem; simp at hmem
    | ok objs =>
        rw [hp] at hmem
        rcases applyLoop_calls env r objs _ hmem with ⟨o2, heq⟩ | ⟨o2, heq, hnf, hpm⟩
        · exact absurd heq (by simp)
        · injection heq with h1 h2
          subst h1
          subst h2
          exact ⟨rfl, hpm⟩
  · intro emb opts h
    unfold NewRenderer
    rw [foldl_nonOwner_fieldOwner opts h]

/-- Witness for C10: the concrete fallback create carries no options while
its patch carried the default owner, and a renderer configured only with
non-owner options keeps the `"plumber"` identity. -/
theorem claim10_witness :
    (([] : List CreateOpt) = [] ∧
      Call.patch (7 : Nat) (PatchOpt.fieldOwner rNat.fieldOwner ::
        (if rNat.forceOwner then [PatchOpt.forceOwnership] else [])) ∈
        (Apply envW1 rNat "base").1) ∧
    (NewRenderer embNat ([WithForceOwnership] : List (POption Nat Nat Nat))).fieldOwner =
      "plumber" :=
  ⟨(@claim10_create_plain_default_owner Nat Nat Nat Nat Nat Nat).1
      envW1 rNat "base" 7 [] (by decide),
    (@claim10_create_plain_default_owner Nat Nat Nat Nat Nat Nat).2
      embNat [WithForceOwnership]
      (by intro f hf
          rw [List.mem_singleton] at hf
          subst hf
          exact Or.inl rfl)⟩

end Plumber
